import Mathlib

/-!
Shallow embedding of the FreeLLMSTxTGenerator crawler and renderer
(src/crawler.py, src/app.py).  Python strings are modelled as lists of
characters.  Network fetches and DOM/XML parsing are modelled as explicit
oracle parameters, matching the specification, which treats the HTTP
transport and the HTML/XML parsers as black-box collaborators.
-/

set_option maxRecDepth 40000

/-- Python strings are modelled as lists of characters. -/
abbrev PyStr := List Char

/-- View a Lean string literal in the character-list model. -/
def pyStr (s : String) : PyStr := s.toList

/-- Python rstrip with a slash argument: remove every trailing slash
character (used by normalize in src/crawler.py line 117, src/app.py
line 83). -/
def rstripSlash (s : PyStr) : PyStr :=
  (s.reverse.dropWhile (fun c => c == '/')).reverse

/-- WebCrawler and AsyncWebCrawler URL normalization (src/crawler.py lines
113-117, src/app.py lines 80-83): prepend the https scheme when no http or
https scheme is present, then strip all trailing slashes. -/
def normalize_url (url : PyStr) : PyStr :=
  if (pyStr "http://").isPrefixOf url || (pyStr "https://").isPrefixOf url then
    rstripSlash url
  else
    rstripSlash (pyStr "https://" ++ url)

/-- Characters of the authority component of a URL: everything up to the
first path, query or fragment delimiter. -/
def authorityChars (s : PyStr) : PyStr :=
  s.takeWhile (fun c => c != '/' && c != '?' && c != '#')

/-- Modelled from Python urllib.parse: the netloc component of urlparse,
restricted to the http, https and protocol-relative URL shapes this program
manipulates; every other input has an empty network location, as urlparse
reports for scheme-less or mailto-style inputs. -/
def netloc (u : PyStr) : PyStr :=
  if (pyStr "https://").isPrefixOf u then authorityChars (u.drop 8)
  else if (pyStr "http://").isPrefixOf u then authorityChars (u.drop 7)
  else if (pyStr "//").isPrefixOf u then authorityChars (u.drop 2)
  else []

/-- Python replace of the four-character substring www-dot by the empty
string: removes every non-overlapping occurrence, scanning left to right
(src/app.py lines 92-93). -/
def replaceWwwEmpty : PyStr → PyStr
  | 'w' :: 'w' :: 'w' :: '.' :: rest => replaceWwwEmpty rest
  | c :: rest => c :: replaceWwwEmpty rest
  | [] => []

/-- Host normalization as the specification words it (section 4.1 and the
glossary): strip one leading www-dot label only. -/
def stripLeadingWww (h : PyStr) : PyStr :=
  if (pyStr "www.").isPrefixOf h then h.drop 4 else h

/-- AsyncWebCrawler same-domain check (src/app.py lines 88-94): compare the
two netlocs after removing every occurrence of www-dot from each. -/
def is_same_domain (base url : PyStr) : Bool :=
  replaceWwwEmpty (netloc base) == replaceWwwEmpty (netloc url)

/-- WebCrawler same-domain check, synchronous version (src/crawler.py lines
119-123): exact netloc equality, with no www handling at all. -/
def is_same_domain_sync (base url : PyStr) : Bool :=
  netloc base == netloc url

/-- Python split on a non-empty separator string, first component: the text
before the first occurrence of the separator, or the whole string when the
separator does not occur. -/
def takeBefore (sep : PyStr) : PyStr → PyStr
  | [] => []
  | c :: rest => if sep.isPrefixOf (c :: rest) then [] else c :: takeBefore sep rest

/-- Python strip with no argument: drop leading and trailing whitespace. -/
def pyStrip (s : PyStr) : PyStr :=
  ((s.dropWhile Char.isWhitespace).reverse.dropWhile Char.isWhitespace).reverse

/-- Title truncation in generate_llms_txt (src/app.py lines 347-348 and
360-361): titles longer than 80 characters become their first 77 characters
followed by a three-character ellipsis. -/
def truncTitle (t : PyStr) : PyStr :=
  if t.length > 80 then t.take 77 ++ pyStr "..." else t

/-- Description truncation in generate_llms_txt (src/app.py lines 351 and
367): descriptions longer than 200 characters become their first 200
characters followed by a three-character ellipsis. -/
def truncDesc (d : PyStr) : PyStr :=
  if d.length > 200 then d.take 200 ++ pyStr "..." else d

/-- Python url.split with a slash, last element: the final slash-separated
segment of the URL string. -/
def lastSlashSegment (u : PyStr) : PyStr := (u.splitOn '/').getLastD []

/-- The shared title normalization of generate_llms_txt (src/app.py lines
346 and 359): text before the first pipe separator, then before the first
dash separator, then stripped of surrounding whitespace. -/
def title_head (t : PyStr) : PyStr :=
  pyStrip (takeBefore (pyStr " - ") (takeBefore (pyStr " | ") t))

/-- Bullet title in the lone-Main branch of generate_llms_txt (src/app.py
lines 346-348): normalized title when the extracted title is non-empty,
otherwise the page URL; then truncated.  This branch has no empty-title
fallback. -/
def mk_title_main (ptitle purl : PyStr) : PyStr :=
  truncTitle (if ptitle ≠ [] then title_head ptitle else purl)

/-- Bullet title in the general branch of generate_llms_txt (src/app.py
lines 359-363): as in the lone-Main branch, but when the resulting title is
empty it falls back to the final slash segment of the URL, or the literal
Page placeholder when that segment is empty. -/
def mk_title_other (ptitle purl : PyStr) : PyStr :=
  let t := truncTitle (if ptitle ≠ [] then title_head ptitle else purl)
  if t = [] then
    (if lastSlashSegment purl ≠ [] then lastSlashSegment purl else pyStr "Page")
  else t

/-- Optional description part of a bullet (src/app.py lines 350-352 and
366-368). -/
def render_desc (pdesc : PyStr) : PyStr :=
  if pdesc ≠ [] then pyStr ": " ++ truncDesc pdesc else []

/-- Rendered bullet in the lone-Main branch (src/app.py lines 345-353). -/
def bullet_main (ptitle pdesc purl : PyStr) : PyStr :=
  pyStr "- [" ++ mk_title_main ptitle purl ++ pyStr "](" ++ purl ++ pyStr ")"
    ++ render_desc pdesc

/-- Rendered bullet in the general branch (src/app.py lines 358-369). -/
def bullet_other (ptitle pdesc purl : PyStr) : PyStr :=
  pyStr "- [" ++ mk_title_other ptitle purl ++ pyStr "](" ++ purl ++ pyStr ")"
    ++ render_desc pdesc

/-- One pass of the recursive sitemap walk over a list of sitemap URLs
(the loop body of crawl_sitemaps, src/crawler.py lines 161-177 and
src/app.py lines 194-210): fetch each sitemap, skip it on fetch failure or
empty body, collect its leaf URLs, and when it lists nested sitemaps append
the result of the recursive expansion, supplied here as the recurse
argument.  The fetch oracle and the XML sitemap parser are the black-box
collaborators of the spec. -/
def crawl_sitemaps_step (recurse : List PyStr → List PyStr)
    (fetch : PyStr → Option PyStr)
    (parse : PyStr → List PyStr × List PyStr) : List PyStr → List PyStr
  | [] => []
  | u :: rest =>
    (match fetch u with
     | none => []
     | some content =>
       if content = [] then []
       else
         (parse content).1 ++
           (if (parse content).2.isEmpty then [] else recurse (parse content).2))
    ++ crawl_sitemaps_step recurse fetch parse rest

/-- Fuel-indexed form of the recursive sitemap crawl: fuel counts the
remaining levels before the depth guard triggers. -/
def crawl_sitemaps_fuel (fetch : PyStr → Option PyStr)
    (parse : PyStr → List PyStr × List PyStr) : Nat → List PyStr → List PyStr
  | 0, _ => []
  | fuel + 1, urls =>
    crawl_sitemaps_step (crawl_sitemaps_fuel fetch parse fuel) fetch parse urls

/-- WebCrawler crawl_sitemaps (src/crawler.py lines 156-177, src/app.py
lines 190-210): a call at depth d returns immediately when d exceeds 3 and
otherwise processes its sitemap list, recursing at depth d + 1; the fuel
4 - d counts the levels left before the guard. -/
def crawl_sitemaps (fetch : PyStr → Option PyStr)
    (parse : PyStr → List PyStr × List PyStr)
    (urls : List PyStr) (depth : Nat) : List PyStr :=
  crawl_sitemaps_fuel fetch parse (4 - depth) urls

/-- A cyclic fetch oracle: every URL resolves to the same sitemap body. -/
def cyc_fetch : PyStr → Option PyStr := fun _ => some (pyStr "<sitemapindex>")

/-- A cyclic parse oracle: every body yields one leaf URL and one nested
sitemap pointing back into the cycle. -/
def cyc_parse : PyStr → List PyStr × List PyStr :=
  fun _ => ([pyStr "https://x.com/p"], [pyStr "https://x.com/s.xml"])

/-- The fixed candidate sitemap paths (src/crawler.py lines 87-97,
src/app.py lines 62-72). -/
def SITEMAP_VARIATIONS : List PyStr :=
  [pyStr "/sitemap.xml", pyStr "/sitemap_index.xml", pyStr "/sitemap-index.xml",
   pyStr "/sitemaps.xml", pyStr "/sitemap1.xml", pyStr "/sitemap/sitemap.xml",
   pyStr "/wp-sitemap.xml", pyStr "/post-sitemap.xml", pyStr "/page-sitemap.xml"]

/-- Python substring containment: the pattern occurs contiguously somewhere
in the string (the in operator on strings). -/
def containsSub (pat : PyStr) : PyStr → Bool
  | [] => pat.isEmpty
  | c :: rest => pat.isPrefixOf (c :: rest) || containsSub pat rest

/-- Acceptance test of the probing loop (src/crawler.py line 149, src/app.py
line 269): the fetch succeeded with a non-empty body containing the literal
urlset or sitemapindex opening markers. -/
def fetch_accepts (fetch : PyStr → Option PyStr) (u : PyStr) : Bool :=
  match fetch u with
  | none => false
  | some c =>
    !(c == []) && (containsSub (pyStr "<urlset") c || containsSub (pyStr "<sitemapindex") c)

/-- The probing loop over the remaining candidate paths (src/crawler.py
lines 146-152, src/app.py lines 266-272).  First component: the found
sitemap list the code returns (the loop breaks at the first acceptance).
Second component: instrumentation recording every URL the loop fetched, in
order. -/
def try_variations_go (fetch : PyStr → Option PyStr) (base : PyStr) :
    List PyStr → List PyStr × List PyStr
  | [] => ([], [])
  | p :: rest =>
    if fetch_accepts fetch (base ++ p) then ([base ++ p], [base ++ p])
    else
      ((try_variations_go fetch base rest).1,
        (base ++ p) :: (try_variations_go fetch base rest).2)

/-- WebCrawler try_sitemap_variations (src/crawler.py lines 141-154) and
the identical inline loop of discover_and_crawl (src/app.py lines 264-272),
with the fetched-URL trace as second component. -/
def try_sitemap_variations (fetch : PyStr → Option PyStr) (base : PyStr) :
    List PyStr × List PyStr :=
  try_variations_go fetch base SITEMAP_VARIATIONS

/-- A crawled page record: the PageInfo dataclass (src/crawler.py lines
18-25, src/app.py lines 49-56). -/
structure PageInfo where
  url : PyStr
  title : PyStr
  description : PyStr
  content_preview : PyStr
  links : List PyStr

/-- The DOM queries the extractors make of a parsed HTML document, modelled
as a pre-parsed value: the spec treats parseHtml as a black-box collaborator
exposing element queries and text extraction.  titleText: stripped text of
the first title element, none when absent.  metaDescription and
ogDescription: the content attribute of the first matching meta element,
none when element or attribute is missing.  blockTexts: stripped texts of
the paragraph, article and main elements in document order.  hrefs: the
href attributes of the anchors that carry one, in document order. -/
structure HtmlDoc where
  titleText : Option PyStr
  metaDescription : Option PyStr
  ogDescription : Option PyStr
  blockTexts : List PyStr
  hrefs : List PyStr

/-- The scheme of an http or https URL, with its colon. -/
def schemePart (u : PyStr) : PyStr :=
  if (pyStr "https://").isPrefixOf u then pyStr "https:"
  else if (pyStr "http://").isPrefixOf u then pyStr "http:"
  else []

/-- Scheme plus authority of an http or https URL. -/
def schemeNetloc (u : PyStr) : PyStr :=
  if (pyStr "https://").isPrefixOf u then pyStr "https://" ++ netloc u
  else if (pyStr "http://").isPrefixOf u then pyStr "http://" ++ netloc u
  else []

/-- Directory part of a path: everything up to and including the last
slash, or a single slash for a slash-free path. -/
def dirOf (p : PyStr) : PyStr :=
  if (p.reverse.dropWhile (fun c => c != '/')).reverse = [] then pyStr "/"
  else (p.reverse.dropWhile (fun c => c != '/')).reverse

/-- Modelled from Python urllib.parse.urljoin, restricted to the reference
shapes this program meets: an empty reference keeps the page URL, an
absolute http or https reference wins outright, a protocol-relative
reference adopts the base scheme, a root-relative reference replaces the
base path, and any other reference replaces the final segment of the base
path.  Dot-segment and query-component handling of the full RFC resolution
algorithm are outside the model. -/
def pyUrljoin (base href : PyStr) : PyStr :=
  if href = [] then base
  else if (pyStr "http://").isPrefixOf href || (pyStr "https://").isPrefixOf href then
    href
  else if (pyStr "//").isPrefixOf href then schemePart base ++ href
  else if (pyStr "/").isPrefixOf href then schemeNetloc base ++ href
  else schemeNetloc base ++ dirOf (base.drop (schemeNetloc base).length) ++ href

/-- The skip test of the link loop (src/crawler.py line 188, src/app.py
line 144): fragment-only, javascript, mailto and tel references are
discarded. -/
def skip_href (h : PyStr) : Bool :=
  (pyStr "#").isPrefixOf h || (pyStr "javascript:").isPrefixOf h
    || (pyStr "mailto:").isPrefixOf h || (pyStr "tel:").isPrefixOf h

/-- Python split on the hash character, first component: remove the URL
fragment (src/crawler.py line 195, src/app.py line 148). -/
def strip_fragment (u : PyStr) : PyStr := u.takeWhile (fun c => c != '#')

/-- Loop body of the link extractor (src/app.py lines 142-151, likewise
src/crawler.py lines 184-199): skip unwanted references, resolve against
the page URL, strip the fragment, and append the link when it is
same-domain and not yet collected. -/
def link_step (pageUrl base : PyStr) (links : List PyStr) (href : PyStr) : List PyStr :=
  if skip_href href then links
  else
    if is_same_domain base (strip_fragment (pyUrljoin pageUrl href)) = true
        ∧ strip_fragment (pyUrljoin pageUrl href) ∉ links then
      links ++ [strip_fragment (pyUrljoin pageUrl href)]
    else links

/-- AsyncWebCrawler extract_links_from_html (src/app.py lines 138-153,
likewise src/crawler.py lines 179-201 up to its synchronous same-domain
check): fold the loop body over the anchor references in document order,
starting from an empty collection. -/
def extract_links (hrefs : List PyStr) (pageUrl base : PyStr) : List PyStr :=
  hrefs.foldl (link_step pageUrl base) []

/-- Python dict.fromkeys deduplication with an explicit seen accumulator:
keeps the first occurrence of each URL (src/crawler.py line 303, src/app.py
line 285). -/
def dedup_keep_first_aux (seen : List PyStr) : List PyStr → List PyStr
  | [] => []
  | x :: rest =>
    if x ∈ seen then dedup_keep_first_aux seen rest
    else x :: dedup_keep_first_aux (x :: seen) rest

/-- Deduplication of the discovered URL list, preserving first occurrence. -/
def dedup_keep_first (l : List PyStr) : List PyStr := dedup_keep_first_aux [] l

/-- The link pipeline as the specification words it (section 4.4): discard
skipped references, resolve each against the page URL, strip fragments,
keep only same-domain links, and deduplicate preserving first-seen order. -/
def extract_links_pipeline (hrefs : List PyStr) (pageUrl base : PyStr) : List PyStr :=
  dedup_keep_first
    (((hrefs.filter (fun h => !skip_href h)).map
        (fun h => strip_fragment (pyUrljoin pageUrl h))).filter
      (fun l => is_same_domain base l))

/-- WebCrawler extract_page_info (src/crawler.py lines 203-242, src/app.py
lines 155-188): title from the first title element, description from the
description meta content with og:description as fallback, content preview
from the first block text longer than 100 characters, truncated at 500
characters with an ellipsis, and the extracted same-domain links. -/
def extract_page_info (url : PyStr) (doc : HtmlDoc) (base : PyStr) : PageInfo :=
  { url := url
    title := match doc.titleText with | some t => t | none => []
    description :=
      match doc.metaDescription with
      | some c =>
        if c ≠ [] then c
        else match doc.ogDescription with
          | some c2 => if c2 ≠ [] then c2 else []
          | none => []
      | none =>
        match doc.ogDescription with
        | some c2 => if c2 ≠ [] then c2 else []
        | none => []
    content_preview :=
      match doc.blockTexts.find? (fun t => decide (100 < t.length)) with
      | some t => if 500 < t.length then t.take 500 ++ pyStr "..." else t
      | none => []
    links := extract_links doc.hrefs url base }

/-- WebCrawler crawl_pages (src/crawler.py lines 308-321) and the
extraction loop of discover_and_crawl (src/app.py lines 290-297): fetch
each URL in order; a fetch failure or empty body skips that URL, a success
appends the extracted page record.  The parse oracle stands for the
black-box HTML parser. -/
def crawl_pages (fetch : PyStr → Option PyStr) (parseDoc : PyStr → HtmlDoc)
    (base : PyStr) : List PyStr → List PageInfo
  | [] => []
  | u :: rest =>
    match fetch u with
    | none => crawl_pages fetch parseDoc base rest
    | some html =>
      if html = [] then crawl_pages fetch parseDoc base rest
      else extract_page_info u (parseDoc html) base :: crawl_pages fetch parseDoc base rest

/-- Step 6 of discover (src/crawler.py line 303, src/app.py line 285):
deduplicate the accumulated URL list preserving first occurrence, then
truncate to the configured maximum. -/
def discover_urls (maxUrls : Nat) (all_urls : List PyStr) : List PyStr :=
  (dedup_keep_first all_urls).take maxUrls

/-- Steps 6 and 7 of discover (src/app.py lines 284-297; discover_urls plus
crawl_pages in src/crawler.py): extract page records from the deduplicated,
truncated URL list.  The all_urls argument is the URL sequence accumulated
by the sitemap or fallback strategies, i.e. the fetch and parse results of
the discovery phase. -/
def discover_and_crawl (fetch : PyStr → Option PyStr) (parseDoc : PyStr → HtmlDoc)
    (base : PyStr) (maxUrls : Nat) (all_urls : List PyStr) : List PageInfo :=
  crawl_pages fetch parseDoc base (discover_urls maxUrls all_urls)

/-- Fetch oracle for the batch-isolation witness: one URL fails, the rest
succeed. -/
def w9_fetch : PyStr → Option PyStr :=
  fun u => if u = pyStr "https://x.com/bad" then none else some (pyStr "<p>ok</p>")

/-- Parse oracle for the witnesses: an HTML document with no metadata. -/
def w9_parse : PyStr → HtmlDoc := fun _ => ⟨none, none, none, [], []⟩

/-- Document for the content-preview witness: one block text of 150
characters. -/
def w10_doc : HtmlDoc := ⟨none, none, none, [List.replicate 150 'a'], []⟩

theorem dropWhile_dropWhile (p : Char → Bool) (l : List Char) :
    (l.dropWhile p).dropWhile p = l.dropWhile p := by
  induction l with
  | nil => rfl
  | cons c rest ih =>
    by_cases h : p c = true
    · simpa [List.dropWhile_cons, h] using ih
    · simp [List.dropWhile_cons, h]

theorem rstripSlash_idem (s : PyStr) :
    rstripSlash (rstripSlash s) = rstripSlash s := by
  unfold rstripSlash
  rw [List.reverse_reverse, dropWhile_dropWhile]

theorem rstripSlash_normalize (u : PyStr) :
    rstripSlash (normalize_url u) = normalize_url u := by
  unfold normalize_url
  split <;> exact rstripSlash_idem _

theorem normalize_of_scheme (v : PyStr)
    (h : ((pyStr "http://").isPrefixOf v || (pyStr "https://").isPrefixOf v) = true) :
    normalize_url v = rstripSlash v := by
  unfold normalize_url
  rw [if_pos h]

/-- Claim C5 (corrected): normalize is idempotent on every input whose
normalized form still carries an explicit http or https scheme.  The
original unconditional statement fails on degenerate bases such as a bare
https scheme, where stripping trailing slashes eats the scheme separator. -/
theorem normalize_url_idem (u : PyStr)
    (h : ((pyStr "http://").isPrefixOf (normalize_url u)
          || (pyStr "https://").isPrefixOf (normalize_url u)) = true) :
    normalize_url (normalize_url u) = normalize_url u :=
  (normalize_of_scheme (normalize_url u) h).trans (rstripSlash_normalize u)

/-- Witness for claim C5 at a concrete base URL. -/
theorem normalize_url_idem_witness :
    normalize_url (normalize_url (pyStr "https://x.com/")) =
      normalize_url (pyStr "https://x.com/") :=
  normalize_url_idem (pyStr "https://x.com/") (by decide)

/-- Counterexample for claim C5 as stated: normalization is not idempotent
at the base consisting of a bare https scheme. -/
theorem normalize_url_not_idem :
    normalize_url (normalize_url (pyStr "https://")) ≠
      normalize_url (pyStr "https://") := by decide

theorem replaceWww_stripLeading (h : PyStr) :
    replaceWwwEmpty (stripLeadingWww h) = replaceWwwEmpty h := by
  unfold stripLeadingWww
  split
  · next hp =>
    obtain ⟨t, ht⟩ := List.isPrefixOf_iff_prefix.mp hp
    subst ht
    rfl
  · rfl

/-- Claim C1 (corrected): in the async crawler, host agreement after
stripping one leading www-dot label implies sameDomain, and the two spec
examples behave as stated; but sameDomain is precisely host agreement after
removing every occurrence of the substring www-dot, a strictly coarser
relation than the one claimed. -/
theorem is_same_domain_spec (b u : PyStr) :
    (stripLeadingWww (netloc b) = stripLeadingWww (netloc u) →
      is_same_domain b u = true)
    ∧ (is_same_domain b u = true ↔
        replaceWwwEmpty (netloc b) = replaceWwwEmpty (netloc u))
    ∧ is_same_domain (pyStr "https://x.com") (pyStr "https://www.x.com/a") = true
    ∧ is_same_domain (pyStr "https://x.com") (pyStr "https://sub.x.com") = false := by
  refine ⟨?_, ?_, by decide, by decide⟩
  · intro h
    have hw : replaceWwwEmpty (netloc b) = replaceWwwEmpty (netloc u) := by
      rw [← replaceWww_stripLeading (netloc b), ← replaceWww_stripLeading (netloc u), h]
    simp [is_same_domain, hw]
  · simp [is_same_domain]

/-- Witness for claim C1 at the spec example pair. -/
theorem is_same_domain_spec_witness :
    is_same_domain (pyStr "https://www.x.com/a") (pyStr "https://x.com") = true :=
  (is_same_domain_spec (pyStr "https://www.x.com/a") (pyStr "https://x.com")).1
    (by decide)

/-- Counterexample for claim C1 as stated: the async sameDomain identifies
two hosts that differ by an interior www-dot label, which leading-www
stripping keeps distinct; and the synchronous crawler version even rejects
the www-variant example the claim requires to be accepted. -/
theorem is_same_domain_counterexample :
    is_same_domain (pyStr "https://www.x.com") (pyStr "https://x.www.com") = true
    ∧ stripLeadingWww (netloc (pyStr "https://www.x.com")) ≠
        stripLeadingWww (netloc (pyStr "https://x.www.com"))
    ∧ is_same_domain_sync (pyStr "https://x.com") (pyStr "https://www.x.com/a") = false :=
  ⟨by decide, by decide, by decide⟩

theorem truncTitle_length_le (x : PyStr) : (truncTitle x).length ≤ 80 := by
  unfold truncTitle
  split
  · next h =>
    rw [List.length_append, List.length_take]
    have h3 : (pyStr "...").length = 3 := rfl
    omega
  · next h => omega

/-- Claim C6 (corrected): in rendered bullets, a description longer than
200 characters is emitted as its first 200 characters plus a
three-character ellipsis — 203 characters, exceeding the claimed 200 — and
shorter descriptions pass unchanged.  For titles: a normalized title longer
than 80 characters is emitted in both branches as exactly its first 77
characters plus an ellipsis, and the lone-Main emitted title never exceeds
80 characters; but the general branch emitted title either respects the
80-character cap or is the untruncated final slash segment of the page URL,
because the post-truncation empty-title fallback is never truncated — so a
rendered bullet can carry a title longer than 80 characters with no
ellipsis, as the counterexample exhibits. -/
theorem bullet_trunc_bounds (ptitle purl d : PyStr) :
    (mk_title_main ptitle purl).length ≤ 80
    ∧ ((mk_title_other ptitle purl).length ≤ 80
        ∨ mk_title_other ptitle purl = lastSlashSegment purl)
    ∧ (80 < (if ptitle ≠ [] then title_head ptitle else purl).length →
        mk_title_main ptitle purl =
          (if ptitle ≠ [] then title_head ptitle else purl).take 77 ++ pyStr "..."
        ∧ mk_title_other ptitle purl = mk_title_main ptitle purl)
    ∧ (200 < d.length → (truncDesc d).length = 203 ∧ pyStr "..." <:+ truncDesc d)
    ∧ (d.length ≤ 200 → truncDesc d = d) := by
  refine ⟨?_, ?_, ?_, ?_, ?_⟩
  · show (truncTitle (if ptitle ≠ [] then title_head ptitle else purl)).length ≤ 80
    exact truncTitle_length_le _
  · by_cases ht : truncTitle (if ptitle ≠ [] then title_head ptitle else purl) = []
    · by_cases hseg : lastSlashSegment purl ≠ []
      · right
        show (if truncTitle (if ptitle ≠ [] then title_head ptitle else purl) = [] then
            (if lastSlashSegment purl ≠ [] then lastSlashSegment purl else pyStr "Page")
          else truncTitle (if ptitle ≠ [] then title_head ptitle else purl)) =
            lastSlashSegment purl
        rw [if_pos ht, if_pos hseg]
      · left
        show (if truncTitle (if ptitle ≠ [] then title_head ptitle else purl) = [] then
            (if lastSlashSegment purl ≠ [] then lastSlashSegment purl else pyStr "Page")
          else truncTitle (if ptitle ≠ [] then title_head ptitle else purl)).length ≤ 80
        rw [if_pos ht, if_neg hseg]
        decide
    · left
      show (if truncTitle (if ptitle ≠ [] then title_head ptitle else purl) = [] then
          (if lastSlashSegment purl ≠ [] then lastSlashSegment purl else pyStr "Page")
        else truncTitle (if ptitle ≠ [] then title_head ptitle else purl)).length ≤ 80
      rw [if_neg ht]
      exact truncTitle_length_le _
  · intro hx
    have htr : truncTitle (if ptitle ≠ [] then title_head ptitle else purl) =
        (if ptitle ≠ [] then title_head ptitle else purl).take 77 ++ pyStr "..." := by
      unfold truncTitle
      rw [if_pos hx]
    refine ⟨htr, ?_⟩
    have hne : truncTitle (if ptitle ≠ [] then title_head ptitle else purl) ≠ [] := by
      rw [htr]
      intro hc
      exact absurd (List.append_eq_nil.mp hc).2 (by decide)
    show (if truncTitle (if ptitle ≠ [] then title_head ptitle else purl) = [] then
        (if lastSlashSegment purl ≠ [] then lastSlashSegment purl else pyStr "Page")
      else truncTitle (if ptitle ≠ [] then title_head ptitle else purl)) =
        mk_title_main ptitle purl
    rw [if_neg hne]
    rfl
  · intro h
    unfold truncDesc
    rw [if_pos h]
    refine ⟨?_, List.suffix_append _ _⟩
    rw [List.length_append, List.length_take]
    have h3 : (pyStr "...").length = 3 := rfl
    omega
  · intro h
    unfold truncDesc
    rw [if_neg (by omega)]

/-- Witness for claim C6: a 100-character separator-free extracted title is
emitted as its first 77 characters plus an ellipsis, in both bullet
branches. -/
theorem bullet_trunc_bounds_witness :
    mk_title_main (List.replicate 100 'b') (pyStr "https://x.com/a") =
      (if (List.replicate 100 'b' : PyStr) ≠ [] then title_head (List.replicate 100 'b')
       else pyStr "https://x.com/a").take 77 ++ pyStr "..."
    ∧ mk_title_other (List.replicate 100 'b') (pyStr "https://x.com/a") =
      mk_title_main (List.replicate 100 'b') (pyStr "https://x.com/a") :=
  (bullet_trunc_bounds (List.replicate 100 'b') (pyStr "https://x.com/a") []).2.2.1
    (by decide)

/-- Counterexample for claim C6 as stated, at the emitted-bullet level: an
extracted title of 81 spaces — longer than 80 characters — normalizes to
the empty string, so the general branch falls back, after the truncation
step, to the untruncated final URL segment; with a 90-character segment the
rendered bullet carries a 90-character link title with no ellipsis.  And a
201-character description is emitted as 203 characters, over the claimed
200-character cap. -/
theorem bullet_trunc_counterexample :
    80 < (List.replicate 81 ' ' : PyStr).length
    ∧ bullet_other (List.replicate 81 ' ') []
          (pyStr "https://x.com/" ++ List.replicate 90 'a')
        = pyStr "- [" ++ List.replicate 90 'a' ++ pyStr "]("
            ++ (pyStr "https://x.com/" ++ List.replicate 90 'a') ++ pyStr ")"
    ∧ (mk_title_other (List.replicate 81 ' ')
        (pyStr "https://x.com/" ++ List.replicate 90 'a')).length = 90
    ∧ ¬ (pyStr "..." <:+ mk_title_other (List.replicate 81 ' ')
          (pyStr "https://x.com/" ++ List.replicate 90 'a'))
    ∧ (truncDesc (List.replicate 201 'a')).length = 203
    ∧ ¬ (truncDesc (List.replicate 201 'a')).length ≤ 200
    ∧ bullet_other (pyStr "T") (List.replicate 201 'a') (pyStr "https://x.com/a")
        = pyStr "- [T](https://x.com/a): " ++ List.replicate 200 'a' ++ pyStr "..." := by
  refine ⟨by decide, by decide, by decide, by decide, by decide, by decide, by decide⟩

/-- Claim C2 (corrected): when the extracted title is empty, both bullet
branches use the page URL itself (truncated) as the link title, not the
final path segment; the final-segment or Page fallback fires only in the
general branch and only when a non-empty raw title normalizes to the empty
string, while the lone-Main branch then renders an empty title. -/
theorem empty_title_fallback (purl : PyStr) (h : purl ≠ []) :
    mk_title_other [] purl = truncTitle purl
    ∧ mk_title_main [] purl = truncTitle purl
    ∧ mk_title_other (pyStr " | x") (pyStr "https://x.com/docs/guide") = pyStr "guide"
    ∧ mk_title_main (pyStr " | x") (pyStr "https://x.com/docs/guide") = [] := by
  have hne : truncTitle purl ≠ [] := by
    unfold truncTitle
    split
    · intro hc
      exact absurd (List.append_eq_nil.mp hc).2 (by decide)
    · exact h
  refine ⟨?_, ?_, by decide, by decide⟩
  · simp only [mk_title_other, ne_eq, not_true_eq_false, if_false]
    rw [if_neg (by simpa using hne)]
  · simp only [mk_title_main, ne_eq, not_true_eq_false, if_false]

/-- Witness for claim C2 at a concrete URL. -/
theorem empty_title_fallback_witness :
    mk_title_other [] (pyStr "https://x.com/a") = truncTitle (pyStr "https://x.com/a")
    ∧ mk_title_main [] (pyStr "https://x.com/a") = truncTitle (pyStr "https://x.com/a")
    ∧ mk_title_other (pyStr " | x") (pyStr "https://x.com/docs/guide") = pyStr "guide"
    ∧ mk_title_main (pyStr " | x") (pyStr "https://x.com/docs/guide") = [] :=
  empty_title_fallback (pyStr "https://x.com/a") (by decide)

/-- Counterexample for claim C2 as stated: for an empty extracted title the
rendered link title is the full page URL, not the final path segment, in
both bullet branches. -/
theorem empty_title_counterexample :
    mk_title_other [] (pyStr "https://x.com/docs/guide") = pyStr "https://x.com/docs/guide"
    ∧ lastSlashSegment (pyStr "https://x.com/docs/guide") = pyStr "guide"
    ∧ pyStr "https://x.com/docs/guide" ≠ pyStr "guide"
    ∧ mk_title_main [] (pyStr "https://x.com/docs/guide") = pyStr "https://x.com/docs/guide" := by
  refine ⟨by decide, by decide, by decide, by decide⟩

/-- The fuel encoding reproduces the source recursion: below the guard, a
call unfolds to the Python loop body with recursive calls at depth + 1. -/
theorem crawl_sitemaps_unfold (fetch : PyStr → Option PyStr)
    (parse : PyStr → List PyStr × List PyStr)
    (u : PyStr) (rest : List PyStr) (d : Nat) (hd : d ≤ 3) :
    crawl_sitemaps fetch parse (u :: rest) d =
      (match fetch u with
       | none => []
       | some content =>
         if content = [] then []
         else
           (parse content).1 ++
             (if (parse content).2.isEmpty then []
              else crawl_sitemaps fetch parse (parse content).2 (d + 1)))
      ++ crawl_sitemaps fetch parse rest d := by
  unfold crawl_sitemaps
  have h4 : 4 - d = (4 - (d + 1)) + 1 := by omega
  rw [h4]
  rfl

/-- Claim C3 (confirmed): a sitemap crawl at any recursion depth greater
than 3 returns no URLs at all, so nested sitemaps past the depth cap
contribute no leaf URLs; and the expansion of a sitemap index that nests
into itself terminates, collecting exactly the four leaf contributions of
depths 0 through 3. -/
theorem sitemap_depth_cap (fetch : PyStr → Option PyStr)
    (parse : PyStr → List PyStr × List PyStr) (urls : List PyStr) (d : Nat)
    (h : 3 < d) :
    crawl_sitemaps fetch parse urls d = []
    ∧ crawl_sitemaps cyc_fetch cyc_parse [pyStr "https://x.com/s.xml"] 0 =
        List.replicate 4 (pyStr "https://x.com/p") := by
  constructor
  · unfold crawl_sitemaps
    have h0 : 4 - d = 0 := by omega
    rw [h0]
    rfl
  · decide

/-- Witness for claim C3 at depth 4 with the cyclic oracles. -/
theorem sitemap_depth_cap_witness :
    crawl_sitemaps cyc_fetch cyc_parse [pyStr "https://x.com/s.xml"] 4 = []
    ∧ crawl_sitemaps cyc_fetch cyc_parse [pyStr "https://x.com/s.xml"] 0 =
        List.replicate 4 (pyStr "https://x.com/p") :=
  sitemap_depth_cap cyc_fetch cyc_parse [pyStr "https://x.com/s.xml"] 4 (by decide)

theorem try_variations_go_spec (fetch : PyStr → Option PyStr) (base : PyStr)
    (pats : List PyStr) :
    (try_variations_go fetch base pats).1 =
      (match pats.find? (fun p => fetch_accepts fetch (base ++ p)) with
       | none => []
       | some p => [base ++ p])
    ∧ (try_variations_go fetch base pats).2 =
      (pats.takeWhile (fun p => !fetch_accepts fetch (base ++ p))
        ++ (match pats.find? (fun p => fetch_accepts fetch (base ++ p)) with
            | none => []
            | some p => [p])).map (fun p => base ++ p) := by
  induction pats with
  | nil => exact ⟨rfl, rfl⟩
  | cons p rest ih =>
    by_cases h : fetch_accepts fetch (base ++ p) = true
    · constructor
      · simp [try_variations_go, h, List.find?]
      · simp [try_variations_go, h, List.find?, List.takeWhile]
    · constructor
      · simp [try_variations_go, h, List.find?, ih.1]
      · simp [try_variations_go, h, List.find?, List.takeWhile, ih.2]

/-- Claim C8 (confirmed): probing tries the fixed candidates in order and
the returned list is the single URL of the first accepted candidate, or
empty when none is accepted; the URLs actually fetched are exactly the
rejected candidates before it plus the accepted one, so no candidate after
an acceptance is ever fetched. -/
theorem try_sitemap_variations_spec (fetch : PyStr → Option PyStr) (base : PyStr) :
    (try_sitemap_variations fetch base).1 =
      (match SITEMAP_VARIATIONS.find? (fun p => fetch_accepts fetch (base ++ p)) with
       | none => []
       | some p => [base ++ p])
    ∧ (try_sitemap_variations fetch base).2 =
      (SITEMAP_VARIATIONS.takeWhile (fun p => !fetch_accepts fetch (base ++ p))
        ++ (match SITEMAP_VARIATIONS.find? (fun p => fetch_accepts fetch (base ++ p)) with
            | none => []
            | some p => [p])).map (fun p => base ++ p) :=
  try_variations_go_spec fetch base SITEMAP_VARIATIONS

theorem dedup_aux_sublist (l : List PyStr) :
    ∀ seen, List.Sublist (dedup_keep_first_aux seen l) l := by
  induction l with
  | nil => intro seen; simp [dedup_keep_first_aux]
  | cons x rest ih =>
    intro seen
    by_cases h : x ∈ seen
    · rw [dedup_keep_first_aux, if_pos h]
      exact (ih seen).trans (List.sublist_cons_self x rest)
    · rw [dedup_keep_first_aux, if_neg h]
      exact List.Sublist.cons₂ x (ih (x :: seen))

theorem dedup_aux_nodup (l : List PyStr) :
    ∀ seen, (dedup_keep_first_aux seen l).Nodup
      ∧ ∀ x ∈ dedup_keep_first_aux seen l, x ∉ seen := by
  induction l with
  | nil =>
    intro seen
    exact ⟨List.nodup_nil, by intro x hx; simp [dedup_keep_first_aux] at hx⟩
  | cons x rest ih =>
    intro seen
    by_cases h : x ∈ seen
    · rw [dedup_keep_first_aux, if_pos h]
      exact ih seen
    · rw [dedup_keep_first_aux, if_neg h]
      obtain ⟨ihn, ihm⟩ := ih (x :: seen)
      refine ⟨List.nodup_cons.mpr ⟨fun hmem => ?_, ihn⟩, ?_⟩
      · exact (ihm x hmem) (List.mem_cons_self x seen)
      · intro y hy
        rcases List.mem_cons.mp hy with rfl | hy2
        · exact h
        · exact fun hys => (ihm y hy2) (List.mem_cons_of_mem _ hys)

theorem dedup_keep_first_nodup (l : List PyStr) : (dedup_keep_first l).Nodup :=
  (dedup_aux_nodup l []).1

theorem dedup_aux_congr (l : List PyStr) :
    ∀ s1 s2 : List PyStr, (∀ x, x ∈ s1 ↔ x ∈ s2) →
      dedup_keep_first_aux s1 l = dedup_keep_first_aux s2 l := by
  induction l with
  | nil => intro s1 s2 _; rfl
  | cons x rest ih =>
    intro s1 s2 hs
    by_cases h : x ∈ s1
    · rw [dedup_keep_first_aux, if_pos h, dedup_keep_first_aux, if_pos ((hs x).mp h)]
      exact ih s1 s2 hs
    · rw [dedup_keep_first_aux, if_neg h, dedup_keep_first_aux,
        if_neg (fun hc => h ((hs x).mpr hc))]
      refine congrArg (x :: ·) (ih (x :: s1) (x :: s2) (fun y => ?_))
      simp [hs y]

theorem crawl_pages_append (fetch : PyStr → Option PyStr) (parseDoc : PyStr → HtmlDoc)
    (base : PyStr) (l1 l2 : List PyStr) :
    crawl_pages fetch parseDoc base (l1 ++ l2) =
      crawl_pages fetch parseDoc base l1 ++ crawl_pages fetch parseDoc base l2 := by
  induction l1 with
  | nil => rfl
  | cons u rest ih =>
    simp only [List.cons_append, crawl_pages]
    cases fetch u with
    | none => exact ih
    | some html =>
      by_cases h : html = []
      · simp [h, ih]
      · simp [h, ih]

theorem crawl_pages_map_url (fetch : PyStr → Option PyStr) (parseDoc : PyStr → HtmlDoc)
    (base : PyStr) (urls : List PyStr) :
    List.Sublist ((crawl_pages fetch parseDoc base urls).map PageInfo.url) urls := by
  induction urls with
  | nil => simp [crawl_pages]
  | cons u rest ih =>
    rcases hf : fetch u with _ | html
    · simp only [crawl_pages, hf]
      exact ih.trans (List.sublist_cons_self u rest)
    · simp only [crawl_pages, hf]
      by_cases h : html = []
      · rw [if_pos h]
        exact ih.trans (List.sublist_cons_self u rest)
      · rw [if_neg h, List.map_cons]
        have hu : (extract_page_info u (parseDoc html) base).url = u := rfl
        rw [hu]
        exact List.Sublist.cons₂ u ih

theorem crawl_pages_length (fetch : PyStr → Option PyStr) (parseDoc : PyStr → HtmlDoc)
    (base : PyStr) (urls : List PyStr) :
    (crawl_pages fetch parseDoc base urls).length ≤ urls.length := by
  have h := (crawl_pages_map_url fetch parseDoc base urls).length_le
  simp only [List.length_map] at h
  exact h

/-- Claim C4 (confirmed): for every fetch and parse oracle and every URL
sequence accumulated by the discovery strategies, the pipeline — dedupe
preserving first occurrence, truncate to maxUrls, then extract — returns at
most maxUrls page records, and no two returned records share a URL. -/
theorem discover_and_crawl_bounded (fetch : PyStr → Option PyStr)
    (parseDoc : PyStr → HtmlDoc) (base : PyStr) (maxUrls : Nat)
    (all_urls : List PyStr) :
    (discover_and_crawl fetch parseDoc base maxUrls all_urls).length ≤ maxUrls
    ∧ ((discover_and_crawl fetch parseDoc base maxUrls all_urls).map
        PageInfo.url).Nodup := by
  constructor
  · calc (discover_and_crawl fetch parseDoc base maxUrls all_urls).length
        ≤ (discover_urls maxUrls all_urls).length :=
          crawl_pages_length fetch parseDoc base _
      _ ≤ maxUrls := by
          simp only [discover_urls]
          exact List.length_take_le maxUrls (dedup_keep_first all_urls)
  · have hsub := crawl_pages_map_url fetch parseDoc base (discover_urls maxUrls all_urls)
    have hnd : (discover_urls maxUrls all_urls).Nodup :=
      (dedup_keep_first_nodup all_urls).sublist (List.take_sublist maxUrls _)
    exact hnd.sublist hsub

/-- Claim C9 (confirmed): a fetch failure on one URL removes exactly that
URL from the extraction loop — the batch splits around it and every later
URL is still processed — and the records of successfully fetched URLs keep
the input order, their URL sequence being a sublist of the input batch. -/
theorem crawl_pages_failure_isolated (fetch : PyStr → Option PyStr)
    (parseDoc : PyStr → HtmlDoc) (base u : PyStr) (pre post urls : List PyStr)
    (h : fetch u = none) :
    crawl_pages fetch parseDoc base (pre ++ u :: post) =
      crawl_pages fetch parseDoc base pre ++ crawl_pages fetch parseDoc base post
    ∧ List.Sublist ((crawl_pages fetch parseDoc base urls).map PageInfo.url) urls := by
  refine ⟨?_, crawl_pages_map_url fetch parseDoc base urls⟩
  rw [crawl_pages_append]
  congr 1
  rw [crawl_pages, h]

/-- Witness for claim C9 on a three-URL batch whose middle fetch fails. -/
theorem crawl_pages_failure_isolated_witness :
    crawl_pages w9_fetch w9_parse (pyStr "https://x.com")
        ([pyStr "https://x.com/a"] ++ pyStr "https://x.com/bad" :: [pyStr "https://x.com/c"]) =
      crawl_pages w9_fetch w9_parse (pyStr "https://x.com") [pyStr "https://x.com/a"]
        ++ crawl_pages w9_fetch w9_parse (pyStr "https://x.com") [pyStr "https://x.com/c"]
    ∧ List.Sublist
        ((crawl_pages w9_fetch w9_parse (pyStr "https://x.com")
          [pyStr "https://x.com/a", pyStr "https://x.com/bad",
            pyStr "https://x.com/c"]).map PageInfo.url)
        [pyStr "https://x.com/a", pyStr "https://x.com/bad", pyStr "https://x.com/c"] :=
  crawl_pages_failure_isolated w9_fetch w9_parse (pyStr "https://x.com")
    (pyStr "https://x.com/bad") [pyStr "https://x.com/a"] [pyStr "https://x.com/c"]
    [pyStr "https://x.com/a", pyStr "https://x.com/bad", pyStr "https://x.com/c"]
    (by decide)

/-- Claim C10 (confirmed): the extracted content preview is empty or has
length strictly greater than 100 and at most 503; a qualifying block text
longer than 500 characters yields exactly its first 500 characters followed
by a three-character ellipsis, and a qualifying text of at most 500
characters is kept whole. -/
theorem content_preview_bounds (url : PyStr) (doc : HtmlDoc) (base : PyStr) :
    ((extract_page_info url doc base).content_preview = []
      ∨ (100 < (extract_page_info url doc base).content_preview.length
          ∧ (extract_page_info url doc base).content_preview.length ≤ 503))
    ∧ ∀ t, doc.blockTexts.find? (fun s => decide (100 < s.length)) = some t →
        (500 < t.length →
          (extract_page_info url doc base).content_preview = t.take 500 ++ pyStr "...")
        ∧ (t.length ≤ 500 →
          (extract_page_info url doc base).content_preview = t) := by
  constructor
  · rcases hf : doc.blockTexts.find? (fun s => decide (100 < s.length)) with _ | t
    · left
      simp [extract_page_info, hf]
    · right
      have ht : 100 < t.length := by
        have := List.find?_some hf
        simpa using this
      by_cases h5 : 500 < t.length
      · have hp : (extract_page_info url doc base).content_preview =
            t.take 500 ++ pyStr "..." := by
          simp [extract_page_info, hf, h5]
        rw [hp, List.length_append, List.length_take]
        have h3 : (pyStr "...").length = 3 := rfl
        omega
      · have hp : (extract_page_info url doc base).content_preview = t := by
          simp [extract_page_info, hf, h5]
        rw [hp]
        omega
  · intro t hf
    constructor
    · intro h5
      simp [extract_page_info, hf, h5]
    · intro h5
      have h5n : ¬ 500 < t.length := by omega
      simp [extract_page_info, hf, h5n]

/-- Witness for claim C10 on a document whose first qualifying block text
has 150 characters. -/
theorem content_preview_bounds_witness :
    (extract_page_info (pyStr "https://x.com/a") w10_doc
        (pyStr "https://x.com")).content_preview = List.replicate 150 'a' :=
  ((content_preview_bounds (pyStr "https://x.com/a") w10_doc (pyStr "https://x.com")).2
    (List.replicate 150 'a') (by decide)).2 (by decide)

theorem link_fold_general (pageUrl base : PyStr) (hrefs : List PyStr) :
    ∀ acc : List PyStr,
      hrefs.foldl (link_step pageUrl base) acc =
        acc ++ dedup_keep_first_aux acc
          (((hrefs.filter (fun h => !skip_href h)).map
              (fun h => strip_fragment (pyUrljoin pageUrl h))).filter
            (fun l => is_same_domain base l)) := by
  induction hrefs with
  | nil =>
    intro acc
    simp [dedup_keep_first_aux]
  | cons h rest ih =>
    intro acc
    by_cases hs : skip_href h = true
    · rw [List.foldl_cons, List.filter_cons_of_neg (by simp [hs])]
      rw [link_step, if_pos hs]
      exact ih acc
    · rw [List.foldl_cons, List.filter_cons_of_pos (by simp [hs]), List.map_cons]
      rw [link_step, if_neg hs]
      by_cases hd : is_same_domain base (strip_fragment (pyUrljoin pageUrl h)) = true
      · rw [List.filter_cons_of_pos hd]
        by_cases hm : strip_fragment (pyUrljoin pageUrl h) ∈ acc
        · rw [if_neg (fun hc => hc.2 hm)]
          rw [dedup_keep_first_aux, if_pos hm]
          exact ih acc
        · rw [if_pos ⟨hd, hm⟩]
          rw [dedup_keep_first_aux, if_neg hm]
          rw [ih (acc ++ [strip_fragment (pyUrljoin pageUrl h)])]
          rw [List.append_assoc]
          refine congrArg (acc ++ ·) ?_
          simp only [List.singleton_append]
          refine congrArg (strip_fragment (pyUrljoin pageUrl h) :: ·) ?_
          refine dedup_aux_congr _ _ _ (fun y => ?_)
          simp [or_comm]
      · rw [List.filter_cons_of_neg hd]
        rw [if_neg (fun hc => hd hc.1)]
        exact ih acc

/-- Claim C7 (confirmed): link extraction coincides with the spec pipeline
— drop fragment-only, javascript, mailto and tel references, resolve the
rest against the page URL, strip fragments, keep only same-domain links,
deduplicate preserving first-seen order — and the extracted list holds each
surviving link exactly once. -/
theorem extract_links_spec (hrefs : List PyStr) (pageUrl base : PyStr) :
    extract_links hrefs pageUrl base = extract_links_pipeline hrefs pageUrl base
    ∧ (extract_links hrefs pageUrl base).Nodup := by
  have hfold := link_fold_general pageUrl base hrefs []
  have heq : extract_links hrefs pageUrl base =
      extract_links_pipeline hrefs pageUrl base := by
    rw [extract_links, hfold]
    rfl
  refine ⟨heq, ?_⟩
  rw [heq, extract_links_pipeline]
  exact dedup_keep_first_nodup _
